import Mathlib

/-!
Shallow embedding of the librarian-mcp-server indexing and query engine
(`src/librarian_mcp_server/models.py`, `indexer.py`, `server.py`).

Modelling conventions:
* Python `datetime` instants are abstracted to naturals;
  `datetime.fromisoformat` is modelled by a decimal-string parser that fails
  on anything that is not a decimal string — in particular on a `datetime`
  object, Python's `TypeError`.
* Python `str.lower` is modelled by mapping `Char.toLower` over the
  characters of the string (`pyLower`).
* Python dictionaries (with their insertion-order semantics) are modelled as
  association lists with replace-or-append assignment (`dictSet`).
* The persisted YAML document is modelled by the node tree `YNode`, whose
  constructors include the `!!timestamp` scalars and `!!python/object/apply`
  tags that `yaml.dump` emits for the `datetime` objects and `FileType`
  members left in `model_dump()`'s python-mode output; `yaml.safe_load` is
  modelled by `yaml_safe_load`, which refuses python tags (ConstructorError)
  and turns timestamp scalars into `datetime` objects (`YVal.dt`), on which
  the subsequent `datetime.fromisoformat` call raises `TypeError`.
* The Python `re` regular-expression engine and the gitignore `PathSpec`
  matcher are external collaborators; they enter the model as explicit
  function parameters (`re_compile`, the `matchFile` payload of an
  ignore spec).
-/

namespace Librarian

/-- Model of Python `str.lower` (ASCII case folding, matching the repo's use). -/
def pyLower (s : String) : String :=
  String.mk (s.data.map Char.toLower)

/-- Source: `models.py::FileType` — the supported file-type tags, in declaration order. -/
inductive FileType where
  | PYTHON
  | JAVASCRIPT
  | TYPESCRIPT
  | KOTLIN
  | JAVA
  | GO
  | RUST
  | CPP
  | C
  | CSHARP
  | RUBY
  | PHP
  | SWIFT
  | MARKDOWN
  | JSON
  | YAML
  | XML
  | HTML
  | CSS
  | OTHER
deriving DecidableEq, Repr

/-- The string value of each enum member (`FileType` is a `str` enum). -/
def FileType.value : FileType → String
  | .PYTHON => "python"
  | .JAVASCRIPT => "javascript"
  | .TYPESCRIPT => "typescript"
  | .KOTLIN => "kotlin"
  | .JAVA => "java"
  | .GO => "go"
  | .RUST => "rust"
  | .CPP => "cpp"
  | .C => "c"
  | .CSHARP => "csharp"
  | .RUBY => "ruby"
  | .PHP => "php"
  | .SWIFT => "swift"
  | .MARKDOWN => "markdown"
  | .JSON => "json"
  | .YAML => "yaml"
  | .XML => "xml"
  | .HTML => "html"
  | .CSS => "css"
  | .OTHER => "other"

/-- All enum members in declaration order (Python iteration order over `FileType`). -/
def FileType.all : List FileType :=
  [.PYTHON, .JAVASCRIPT, .TYPESCRIPT, .KOTLIN, .JAVA, .GO, .RUST, .CPP, .C,
   .CSHARP, .RUBY, .PHP, .SWIFT, .MARKDOWN, .JSON, .YAML, .XML, .HTML, .CSS,
   .OTHER]

/-- Model of the `FileType(value)` constructor call: the member with that
value, or failure (`ValueError`) when no member has it. -/
def FileType.ofValue (s : String) : Option FileType :=
  FileType.all.find? (fun t => t.value == s)

/-- Source: `models.py::FILE_TYPE_EXTENSIONS`, in dict insertion order. -/
def FILE_TYPE_EXTENSIONS : List (FileType × List String) :=
  [(.PYTHON, [".py", ".pyi", ".pyx", ".pxd"]),
   (.JAVASCRIPT, [".js", ".mjs", ".cjs"]),
   (.TYPESCRIPT, [".ts", ".tsx", ".d.ts"]),
   (.KOTLIN, [".kt", ".kts"]),
   (.JAVA, [".java"]),
   (.GO, [".go"]),
   (.RUST, [".rs"]),
   (.CPP, [".cpp", ".cxx", ".cc", ".hpp", ".hxx", ".h++"]),
   (.C, [".c", ".h"]),
   (.CSHARP, [".cs"]),
   (.RUBY, [".rb"]),
   (.PHP, [".php"]),
   (.SWIFT, [".swift"]),
   (.MARKDOWN, [".md", ".markdown"]),
   (.JSON, [".json"]),
   (.YAML, [".yml", ".yaml"]),
   (.XML, [".xml"]),
   (.HTML, [".html", ".htm"]),
   (.CSS, [".css", ".scss", ".sass", ".less"])]

/-- Model of Python `PurePath.suffix`: the extension of the final component
`name` — `name[i:]` for `i` the index of the last dot when `0 < i < len - 1`,
otherwise the empty string. -/
def pySuffix (name : String) : String :=
  let cs := name.data
  let n := cs.length
  match cs.reverse.findIdx? (fun c => c == '.') with
  | none => ""
  | some j =>
    let i := n - 1 - j
    if 0 < i ∧ i < n - 1 then String.mk (cs.drop i) else ""

/-- The `for file_type, extensions in FILE_TYPE_EXTENSIONS.items()` loop of
`models.py::get_file_type`: the first type whose extension list contains `e`,
else `OTHER`. -/
def lookupExt (e : String) : FileType :=
  match FILE_TYPE_EXTENSIONS.find? (fun p => p.2.contains e) with
  | some p => p.1
  | none => FileType.OTHER

/-- The body of `models.py::get_file_type` as a function of the extension:
`ext = file_path.suffix.lower()` followed by the table loop. -/
def classifyOfExt (ext : String) : FileType :=
  lookupExt (pyLower ext)

/-- Source: `models.py::get_file_type`, as a function of the file's final name
component (the only part `Path.suffix` reads). -/
def get_file_type (file_name : String) : FileType :=
  classifyOfExt (pySuffix file_name)

/-- Association-list lookup modelling Python `dict.get` (keys are unique in a
Python dict, so first-match lookup is faithful). -/
def dictGet? {α : Type} (d : List (String × α)) (k : String) : Option α :=
  (d.find? (fun p => p.1 == k)).map (fun p => p.2)

/-- Association-list assignment modelling Python `d[k] = v`: an existing key
keeps its position, a new key is appended (dict insertion order). -/
def dictSet {α : Type} : List (String × α) → String → α → List (String × α)
  | [], k, v => [(k, v)]
  | p :: rest, k, v =>
    if p.1 == k then (k, v) :: rest else p :: dictSet rest k v

/-- Source: `models.py::FileEntry`. `modified` is an abstract instant (natural). -/
structure FileEntry where
  path : String
  type : FileType
  size : Int
  modified : Nat
  hash : String
deriving DecidableEq, Repr

/-- Source: `models.py::RepositoryInfo`. -/
structure RepositoryInfo where
  path : String
  total_files : Int
deriving DecidableEq, Repr

/-- Source: `models.py::WorkspaceIndex` (defaults as in the pydantic model). -/
structure WorkspaceIndex where
  version : String := "1.0"
  last_updated : Nat
  repository : RepositoryInfo
  index : List (String × List FileEntry) := [("files", [])]
  file_types : List (FileType × List String) := FILE_TYPE_EXTENSIONS
deriving DecidableEq, Repr

/-- The `self.index.get("files", [])` access used throughout the code. -/
def WorkspaceIndex.files (w : WorkspaceIndex) : List FileEntry :=
  (dictGet? w.index "files").getD []

/-- Source: `models.py::WorkspaceIndex.add_file`. -/
def WorkspaceIndex.add_file (w : WorkspaceIndex) (e : FileEntry) : WorkspaceIndex :=
  let idx0 :=
    match dictGet? w.index "files" with
    | none => dictSet w.index "files" []
    | some _ => w.index
  let newFiles := (dictGet? idx0 "files").getD [] ++ [e]
  let idx1 := dictSet idx0 "files" newFiles
  { w with
    index := idx1
    repository := { w.repository with total_files := (newFiles.length : Int) } }

/-- Source: `models.py::WorkspaceIndex.get_files_by_type`. -/
def WorkspaceIndex.get_files_by_type (w : WorkspaceIndex) (t : FileType) : List FileEntry :=
  w.files.filter (fun f => f.type == t)

/-- Python substring containment `needle in hay` on character lists. -/
def listContainsSub (needle : List Char) : List Char → Bool
  | [] => needle.isEmpty
  | c :: rest => needle.isPrefixOf (c :: rest) || listContainsSub needle rest

/-- Python substring containment `needle in hay` on strings. -/
def strContainsSub (hay needle : String) : Bool :=
  listContainsSub needle.data hay.data

/-- Source: `models.py::WorkspaceIndex.search_files`. -/
def WorkspaceIndex.search_files (w : WorkspaceIndex) (pattern : String)
    (case_sensitive : Bool) : List FileEntry :=
  let files := w.files
  if !case_sensitive then
    let p := pyLower pattern
    files.filter (fun f => strContainsSub (pyLower f.path) p)
  else
    files.filter (fun f => strContainsSub f.path pattern)

/-- Model of a `pathlib.Path` as its `parts` sequence (an absolute path has
`"/"` as its first part, as in Python). -/
structure PyPath where
  parts : List String
deriving DecidableEq, Repr

/-- Model of `Path.relative_to`: succeeds exactly when the other path's parts
are a leading segment, returning the remainder; `none` models the
`ValueError` raised otherwise. -/
def PyPath.relative_to (p root : PyPath) : Option PyPath :=
  if root.parts.isPrefixOf p.parts then
    some ⟨p.parts.drop root.parts.length⟩
  else
    none

/-- Source: `str(path)` for a relative path (forward-slash join of its parts). -/
def PyPath.render (p : PyPath) : String :=
  String.intercalate "/" p.parts

/-- Model of Python `str.startswith`. -/
def pyStartsWith (s pre : String) : Bool :=
  pre.data.isPrefixOf s.data

/-- The fixed denylist inside `indexer.py::FileIndexer._should_ignore`. -/
def ignore_dirs : List String :=
  ["node_modules", "__pycache__", "venv", "env", "build", "dist", "target"]

/-- Source: `indexer.py::FileIndexer._should_ignore`. The compiled gitignore
`PathSpec` (present iff a `.gitignore` file exists) is modelled by its
`match_file` function on the rendered relative path. -/
def should_ignore (gitignore_spec : Option (String → Bool))
    (repo_path path : PyPath) : Bool :=
  match gitignore_spec with
  | some matchFile =>
    match path.relative_to repo_path with
    | some rel => matchFile rel.render
    | none => true
  | none =>
    path.parts.any (fun part => pyStartsWith part ".") ||
    path.parts.any (fun part => ignore_dirs.contains part)

/-- Source: `indexer.py::FileIndexer.create_index`, as a function of the file entries
produced by `_scan_directory` (the filesystem walk itself is I/O), the
repository path string and the `datetime.now()` instant. -/
def create_index (repo_path : String) (now : Nat)
    (scanned : List FileEntry) : WorkspaceIndex :=
  let repo_info : RepositoryInfo :=
    { path := repo_path, total_files := (scanned.length : Int) }
  let index0 : WorkspaceIndex :=
    { last_updated := now, repository := repo_info }
  scanned.foldl WorkspaceIndex.add_file index0

/-- The numeric value of a decimal digit character, if it is one. -/
def digitVal? (c : Char) : Option Nat :=
  if 48 ≤ c.toNat ∧ c.toNat ≤ 57 then some (c.toNat - 48) else none

/-- Left fold of a decimal digit string onto an accumulator. -/
def decodeDigits : List Char → Nat → Option Nat
  | [], acc => some acc
  | c :: cs, acc =>
    match digitVal? c with
    | some d => decodeDigits cs (acc * 10 + d)
    | none => none

/-- Model of `datetime.fromisoformat` on abstract instants: accepts exactly
(non-empty) decimal renderings, fails on anything else. -/
def fromisoformat (s : String) : Option Nat :=
  match s.data with
  | [] => none
  | cs => decodeDigits cs 0

/-- Python data as returned by `yaml.safe_load`: strings, ints, `datetime`
objects (`dt`, produced from `!!timestamp` scalars), lists, and dicts (whose
keys are strings in every document this program reads). This is also the
shape `load_index`'s conversion and validation steps consume. -/
inductive YVal where
  | s : String → YVal
  | i : Int → YVal
  | dt : Nat → YVal
  | list : List YVal → YVal
  | map : List (String × YVal) → YVal

/-- Key lookup in a `YVal.map` payload. -/
def yGet (m : List (String × YVal)) (k : String) : Option YVal :=
  (m.find? (fun p => p.1 == k)).map (fun p => p.2)

/-- Nodes of the YAML document `yaml.dump` writes: plain scalars, sequences
and mappings, plus the `!!timestamp` scalar it emits for a `datetime` object
and the `!!python/object/apply:<ctor>` tag its `object` multi-representer
emits for objects outside the safe table (such as `FileType` members). -/
inductive YNode where
  | scalarStr : String → YNode
  | scalarInt : Int → YNode
  | scalarTimestamp : Nat → YNode
  | pythonApply : String → List YNode → YNode
  | seq : List YNode → YNode
  | mapping : List (YNode × YNode) → YNode

/-- The constructor path in the `!!python/object/apply` tag that `yaml.dump`
writes for a `FileType` member. -/
def FileTypeCtorTag : String := "librarian_mcp_server.models.FileType"

mutual

/-- Model of `yaml.safe_load` on a document: plain scalars, sequences and
string-keyed mappings load to the corresponding Python values, a
`!!timestamp` scalar loads to a `datetime` object, and any
`!!python/object/apply` tag — as value or as key — makes loading fail
(ConstructorError, caught by `load_index`'s `except`). -/
def yaml_safe_load : YNode → Option YVal
  | .scalarStr s => some (.s s)
  | .scalarInt i => some (.i i)
  | .scalarTimestamp t => some (.dt t)
  | .pythonApply _ _ => none
  | .seq ns => (yaml_safe_load_list ns).map YVal.list
  | .mapping kvs => (yaml_safe_load_pairs kvs).map YVal.map

def yaml_safe_load_list : List YNode → Option (List YVal)
  | [] => some []
  | n :: ns => do pure ((← yaml_safe_load n) :: (← yaml_safe_load_list ns))

def yaml_safe_load_pairs : List (YNode × YNode) → Option (List (String × YVal))
  | [] => some []
  | (k, v) :: rest =>
    match k with
    | .scalarStr s => do pure ((s, ← yaml_safe_load v) :: (← yaml_safe_load_pairs rest))
    | _ => none

end

/-- The `model_dump()` (python mode) of one `FileEntry` as `yaml.dump` writes
it: `type` stays a `FileType` member, serialized under the
`!!python/object/apply` tag; `modified` stays a `datetime`, serialized as a
`!!timestamp` scalar. -/
def dumpFileEntryNode (e : FileEntry) : YNode :=
  .mapping [(.scalarStr "path", .scalarStr e.path),
            (.scalarStr "type", .pythonApply FileTypeCtorTag [.scalarStr e.type.value]),
            (.scalarStr "size", .scalarInt e.size),
            (.scalarStr "modified", .scalarTimestamp e.modified),
            (.scalarStr "hash", .scalarStr e.hash)]

/-- Source: `indexer.py::FileIndexer.save_index` — the document
`yaml.dump(index.model_dump())` writes to `workspace.yml`. `model_dump()`
runs in python mode (the deprecated `json_encoders` config is not applied),
so `last_updated` and every `modified` stay `datetime` objects (dumped as
`!!timestamp`) and `FileType` members — including the `file_types` dict keys
— stay enum objects (dumped as `!!python/object/apply` tags). -/
def dumpIndexNode (w : WorkspaceIndex) : YNode :=
  .mapping [(.scalarStr "version", .scalarStr w.version),
            (.scalarStr "last_updated", .scalarTimestamp w.last_updated),
            (.scalarStr "repository",
             .mapping [(.scalarStr "path", .scalarStr w.repository.path),
                       (.scalarStr "total_files", .scalarInt w.repository.total_files)]),
            (.scalarStr "index",
             .mapping (w.index.map
               (fun kv => (.scalarStr kv.1, YNode.seq (kv.2.map dumpFileEntryNode))))),
            (.scalarStr "file_types",
             .mapping (w.file_types.map
               (fun kv => (YNode.pythonApply FileTypeCtorTag [.scalarStr kv.1.value],
                           YNode.seq (kv.2.map YNode.scalarStr)))))]

/-- Persisted-state contents after `save_index`: the file now exists and
holds the dumped document. -/
def save_index (w : WorkspaceIndex) : Option YNode :=
  some (dumpIndexNode w)

def parseStr : YVal → Option String
  | .s v => some v
  | _ => none

def parseInt : YVal → Option Int
  | .i v => some v
  | _ => none

/-- Validation of a `type` field: a string naming a `FileType` member. -/
def parseFileType (v : YVal) : Option FileType := do
  FileType.ofValue (← parseStr v)

/-- Validation of one file record, with the `modified` timestamp string
converted back to an instant (`datetime.fromisoformat`). -/
def parseFileEntry : YVal → Option FileEntry
  | .map m => do
    let path ← (yGet m "path").bind parseStr
    let ty ← (yGet m "type").bind parseFileType
    let size ← (yGet m "size").bind parseInt
    let modified ← fromisoformat (← (yGet m "modified").bind parseStr)
    let hash ← (yGet m "hash").bind parseStr
    pure { path := path, type := ty, size := size, modified := modified,
           hash := hash }
  | _ => none

def parseEntries : List YVal → Option (List FileEntry)
  | [] => some []
  | v :: vs => do pure ((← parseFileEntry v) :: (← parseEntries vs))

def parseEntryList : YVal → Option (List FileEntry)
  | .list vs => parseEntries vs
  | _ => none

def parseStrs : List YVal → Option (List String)
  | [] => some []
  | v :: vs => do pure ((← parseStr v) :: (← parseStrs vs))

def parseExtList : YVal → Option (List String)
  | .list vs => parseStrs vs
  | _ => none

def parseRepositoryInfo : YVal → Option RepositoryInfo
  | .map m => do
    let path ← (yGet m "path").bind parseStr
    let total ← (yGet m "total_files").bind parseInt
    pure { path := path, total_files := total }
  | _ => none

def parseIndexPairs : List (String × YVal) → Option (List (String × List FileEntry))
  | [] => some []
  | kv :: rest => do pure ((kv.1, ← parseEntryList kv.2) :: (← parseIndexPairs rest))

def parseIndexDict : YVal → Option (List (String × List FileEntry))
  | .map m => parseIndexPairs m
  | _ => none

def parseFileTypePairs : List (String × YVal) → Option (List (FileType × List String))
  | [] => some []
  | kv :: rest => do
    pure ((← FileType.ofValue kv.1, ← parseExtList kv.2) :: (← parseFileTypePairs rest))

def parseFileTypesDict : YVal → Option (List (FileType × List String))
  | .map m => parseFileTypePairs m
  | _ => none

/-- Deserialization and validation of the whole document back into a
`WorkspaceIndex` (the `fromisoformat` conversions of `load_index` followed by
the pydantic construction, with each field's default applied when the key is
absent). -/
def parseWorkspaceIndex : YVal → Option WorkspaceIndex
  | .map m => do
    let version ←
      match yGet m "version" with
      | none => some "1.0"
      | some v => parseStr v
    let lastUpdated ← fromisoformat (← (yGet m "last_updated").bind parseStr)
    let repo ← (yGet m "repository").bind parseRepositoryInfo
    let index ←
      match yGet m "index" with
      | none => some [("files", [])]
      | some v => parseIndexDict v
    let fileTypes ←
      match yGet m "file_types" with
      | none => some FILE_TYPE_EXTENSIONS
      | some v => parseFileTypesDict v
    pure { version := version, last_updated := lastUpdated,
           repository := repo, index := index, file_types := fileTypes }
  | _ => none

/-- Source: `indexer.py::FileIndexer.load_index`: `none` when the persisted file
does not exist; otherwise `yaml.safe_load` of its document followed by the
conversion-and-validation step, with every failure of either caught by the
broad `except` and turned into `none`. -/
def load_index (persisted : Option YNode) : Option WorkspaceIndex :=
  match persisted with
  | none => none
  | some doc => (yaml_safe_load doc).bind parseWorkspaceIndex

/-- Source: `server.py::search_files` (the tool body after index initialization):
substring search followed by `[:limit]`. -/
def search_files_tool (w : WorkspaceIndex) (query : String)
    (case_sensitive : Bool) (limit : Nat) : List FileEntry :=
  (w.search_files query case_sensitive).take limit

/-- Source: `server.py::search_files_regex`. The `re` engine is an external
collaborator: `re_compile pattern case_sensitive` models
`re.compile(pattern, flags)`, returning either the compiler diagnostic or the
compiled regex's `search`-anywhere predicate on a string. -/
def search_files_regex
    (re_compile : String → Bool → Except String (String → Bool))
    (w : WorkspaceIndex) (pattern : String) (case_sensitive : Bool)
    (limit : Nat) : Except String (List FileEntry) :=
  match re_compile pattern case_sensitive with
  | .error e => .error ("Invalid regex pattern: " ++ e)
  | .ok regexSearch =>
    .ok ((w.files.filter (fun f => regexSearch f.path)).take limit)

/-- The `", ".join([t.value for t in FileType])` string of `server.py`. -/
def valid_types_str : String :=
  String.intercalate ", " (FileType.all.map FileType.value)

/-- Source: `server.py::search_by_type`. `pattern = some ""` is falsy in Python's
`if pattern:`, hence skips the filter, like `none`. -/
def search_by_type (w : WorkspaceIndex) (file_type : String)
    (pattern : Option String) (limit : Nat) : Except String (List FileEntry) :=
  match FileType.ofValue (pyLower file_type) with
  | none => .error ("Invalid file type. Valid types are: " ++ valid_types_str)
  | some ftype =>
    let results := w.get_files_by_type ftype
    let results :=
      match pattern with
      | some p =>
        if p = "" then results
        else
          let pl := pyLower p
          results.filter (fun f => strContainsSub (pyLower f.path) pl)
      | none => results
    .ok (results.take limit)

/-- Lower-casing the path of one entry (used to state the case-folding law). -/
def lowerEntry (f : FileEntry) : FileEntry :=
  { f with path := pyLower f.path }

/-- The same index with every stored path lower-cased (used to state the
case-folding law). -/
def lowerPaths (w : WorkspaceIndex) : WorkspaceIndex :=
  { w with index := w.index.map (fun kv => (kv.1, kv.2.map lowerEntry)) }

/-- Sample entries and index used by the concrete witness statements. -/
def sampleEntry : FileEntry :=
  { path := "src/main.py", type := .PYTHON, size := 14, modified := 5, hash := "" }

def sampleEntry2 : FileEntry :=
  { path := "js/app.js", type := .JAVASCRIPT, size := 3, modified := 6, hash := "h" }

def sampleIndex : WorkspaceIndex :=
  create_index "/repo" 7 [sampleEntry, sampleEntry2]

/-! ### Helper lemmas -/

theorem char_toLower_idem (c : Char) :
    Char.toLower (Char.toLower c) = Char.toLower c := by
  by_cases h : c.toNat ≥ 65 ∧ c.toNat ≤ 90
  · have h1 : Char.toLower c = Char.ofNat (c.toNat + 32) := by
      rw [Char.toLower]
      simp [h]
    rw [h1]
    obtain ⟨h65, h90⟩ := h
    generalize hn : c.toNat = n at h65 h90
    interval_cases n <;> decide
  · have h1 : Char.toLower c = c := by
      rw [Char.toLower]
      simp [h]
    rw [h1]
    exact h1

theorem pyLower_idem (s : String) : pyLower (pyLower s) = pyLower s := by
  unfold pyLower
  cases s with
  | mk data =>
    simp only [List.map_map]
    congr 1
    exact List.map_congr_left (fun c _ => char_toLower_idem c)

theorem isPrefixOf_iff_exists {l₁ l₂ : List Char} :
    l₁.isPrefixOf l₂ = true ↔ ∃ t, l₂ = l₁ ++ t := by
  induction l₁ generalizing l₂ with
  | nil => simp [List.isPrefixOf]
  | cons a l ih =>
    cases l₂ with
    | nil => simp [List.isPrefixOf]
    | cons b m =>
      simp only [List.isPrefixOf, Bool.and_eq_true, beq_iff_eq, ih,
        List.cons_append, List.cons.injEq]
      constructor
      · rintro ⟨rfl, t, rfl⟩
        exact ⟨t, rfl, rfl⟩
      · rintro ⟨t, rfl, rfl⟩
        exact ⟨rfl, t, rfl⟩

theorem listContainsSub_iff {needle hay : List Char} :
    listContainsSub needle hay = true ↔ ∃ pre post, hay = pre ++ needle ++ post := by
  induction hay with
  | nil =>
    simp only [listContainsSub, List.isEmpty_iff]
    constructor
    · rintro rfl
      exact ⟨[], [], rfl⟩
    · rintro ⟨pre, post, h⟩
      have := List.append_eq_nil.mp h.symm
      exact (List.append_eq_nil.mp this.1).2
  | cons c rest ih =>
    simp only [listContainsSub, Bool.or_eq_true, isPrefixOf_iff_exists, ih]
    constructor
    · rintro (⟨t, ht⟩ | ⟨pre, post, hp⟩)
      · exact ⟨[], t, by simpa using ht⟩
      · exact ⟨c :: pre, post, by simp [hp]⟩
    · rintro ⟨pre, post, hp⟩
      cases pre with
      | nil => exact Or.inl ⟨post, by simpa using hp⟩
      | cons d pre' =>
        right
        simp only [List.cons_append, List.cons.injEq] at hp
        exact ⟨pre', post, hp.2⟩

theorem string_data_append (a b : String) : (a ++ b).data = a.data ++ b.data :=
  rfl

theorem strContainsSub_iff {hay needle : String} :
    strContainsSub hay needle = true ↔ ∃ pre post, hay = pre ++ needle ++ post := by
  unfold strContainsSub
  rw [listContainsSub_iff]
  constructor
  · rintro ⟨pre, post, h⟩
    refine ⟨String.mk pre, String.mk post, ?_⟩
    apply String.ext
    simpa using h
  · rintro ⟨pre, post, rfl⟩
    exact ⟨pre.data, post.data, by simp [string_data_append]⟩

theorem dictGet?_dictSet_self {α : Type} (d : List (String × α)) (k : String)
    (v : α) : dictGet? (dictSet d k v) k = some v := by
  induction d with
  | nil => simp [dictSet, dictGet?, List.find?]
  | cons p rest ih =>
    by_cases h : p.1 == k
    · simp [dictSet, dictGet?, List.find?, h]
    · simp only [dictSet, h]
      simpa [dictGet?, List.find?, h] using ih

theorem files_add_file (w : WorkspaceIndex) (e : FileEntry) :
    (w.add_file e).files = w.files ++ [e] := by
  unfold WorkspaceIndex.add_file WorkspaceIndex.files
  cases h : dictGet? w.index "files" with
  | none => simp [h, dictGet?_dictSet_self]
  | some fs => simp [h, dictGet?_dictSet_self]

theorem total_files_add_file (w : WorkspaceIndex) (e : FileEntry) :
    (w.add_file e).repository.total_files = (((w.add_file e).files).length : Int) := by
  rw [files_add_file]
  unfold WorkspaceIndex.add_file WorkspaceIndex.files
  cases h : dictGet? w.index "files" with
  | none => simp [h, dictGet?_dictSet_self]
  | some fs => simp [h, dictGet?_dictSet_self]

theorem files_foldl_add_file (ws : WorkspaceIndex) (es : List FileEntry) :
    (es.foldl WorkspaceIndex.add_file ws).files = ws.files ++ es := by
  induction es generalizing ws with
  | nil => simp
  | cons e rest ih =>
    simp only [List.foldl_cons, ih, files_add_file, List.append_assoc,
      List.cons_append, List.nil_append]

theorem files_create_index (p : String) (t : Nat) (fs : List FileEntry) :
    (create_index p t fs).files = fs := by
  unfold create_index
  rw [files_foldl_add_file]
  simp [WorkspaceIndex.files, dictGet?, List.find?]

theorem dictGet?_map_values {α β : Type} (d : List (String × α)) (g : α → β)
    (k : String) :
    dictGet? (d.map (fun kv => (kv.1, g kv.2))) k = (dictGet? d k).map g := by
  induction d with
  | nil => simp [dictGet?]
  | cons p rest ih =>
    by_cases h : p.1 == k
    · simp [dictGet?, List.find?, h]
    · simpa [dictGet?, List.find?, h] using ih

theorem files_lowerPaths (w : WorkspaceIndex) :
    (lowerPaths w).files = w.files.map lowerEntry := by
  unfold lowerPaths WorkspaceIndex.files
  rw [dictGet?_map_values]
  cases dictGet? w.index "files" <;> simp

theorem total_files_foldl_add_file (ws : WorkspaceIndex) (es : List FileEntry)
    (h : es ≠ []) :
    (es.foldl WorkspaceIndex.add_file ws).repository.total_files =
      (((es.foldl WorkspaceIndex.add_file ws).files).length : Int) := by
  induction es generalizing ws with
  | nil => exact absurd rfl h
  | cons e rest ih =>
    cases rest with
    | nil => simpa using total_files_add_file ws e
    | cons e2 rest2 => simpa using ih (ws.add_file e) (by simp)

theorem total_files_create_index (p : String) (t : Nat) (fs : List FileEntry) :
    (create_index p t fs).repository.total_files = (fs.length : Int) := by
  cases h : fs with
  | nil => rfl
  | cons e rest =>
    rw [← h]
    have hne : fs ≠ [] := by simp [h]
    rw [show (create_index p t fs) = fs.foldl WorkspaceIndex.add_file
      { last_updated := t,
        repository := { path := p, total_files := (fs.length : Int) } } from rfl]
    rw [total_files_foldl_add_file _ fs hne, files_foldl_add_file]
    simp [WorkspaceIndex.files, dictGet?, List.find?]

theorem mem_get_files_by_type {w : WorkspaceIndex} {t : FileType}
    {f : FileEntry} :
    f ∈ w.get_files_by_type t ↔ f ∈ w.files ∧ f.type = t := by
  simp [WorkspaceIndex.get_files_by_type]

theorem file_types_add_file (w : WorkspaceIndex) (e : FileEntry) :
    (w.add_file e).file_types = w.file_types := rfl

theorem file_types_foldl_add_file (ws : WorkspaceIndex) (es : List FileEntry) :
    (es.foldl WorkspaceIndex.add_file ws).file_types = ws.file_types := by
  induction es generalizing ws with
  | nil => rfl
  | cons e rest ih => simpa [file_types_add_file] using ih (ws.add_file e)

theorem file_types_create_index (p : String) (t : Nat) (fs : List FileEntry) :
    (create_index p t fs).file_types = FILE_TYPE_EXTENSIONS := by
  unfold create_index
  rw [file_types_foldl_add_file]

theorem yaml_safe_load_pairs_value_none {v : YNode}
    (hv : yaml_safe_load v = none) {kvs : List (YNode × YNode)} {k : YNode}
    (hmem : (k, v) ∈ kvs) :
    yaml_safe_load_pairs kvs = none := by
  induction kvs with
  | nil => cases hmem
  | cons kv0 rest ih =>
    obtain ⟨k0, v0⟩ := kv0
    rcases List.mem_cons.mp hmem with heq | hrest
    · injection heq with h1 h2
      subst h1
      subst h2
      cases k <;> simp [yaml_safe_load_pairs, hv]
    · cases k0 <;> simp [yaml_safe_load_pairs]
      all_goals
        cases yaml_safe_load v0 <;> simp [ih hrest]

theorem yaml_safe_load_pairs_key_py {kvs : List (YNode × YNode)}
    {nm : String} {args : List YNode} {v : YNode}
    (hmem : (YNode.pythonApply nm args, v) ∈ kvs) :
    yaml_safe_load_pairs kvs = none := by
  induction kvs with
  | nil => cases hmem
  | cons kv0 rest ih =>
    obtain ⟨k0, v0⟩ := kv0
    rcases List.mem_cons.mp hmem with heq | hrest
    · injection heq with h1 h2
      subst h2
      rw [← h1]
      simp [yaml_safe_load_pairs]
    · cases k0 <;> simp [yaml_safe_load_pairs]
      all_goals
        cases yaml_safe_load v0 <;> simp [ih hrest]

/-! ### Claim theorems -/

/-- C1 (code bug): the round-trip law the spec states — and the repository's
own `test_save_and_load_index` asserts — fails in the code: for every index
produced by `create_index`, `save_index` followed by `load_index` returns
absent. `model_dump()` (python mode) keeps `FileType` members (among them the
`file_types` dict keys) and `datetime` objects; `yaml.dump` writes them as
`!!python/object/apply` tags and `!!timestamp` scalars; `yaml.safe_load`
then raises on the python tags (and `datetime.fromisoformat` would raise
`TypeError` on the loaded `datetime`), so `load_index`'s broad `except`
returns `None` for every saved index. -/
theorem C1_save_load_returns_none (p : String) (t : Nat) (fs : List FileEntry) :
    load_index (save_index (create_index p t fs)) = none := by
  have hkey : (YNode.pythonApply FileTypeCtorTag
          [YNode.scalarStr (FileType.value .PYTHON)],
        YNode.seq (List.map YNode.scalarStr [".py", ".pyi", ".pyx", ".pxd"])) ∈
      (create_index p t fs).file_types.map
        (fun kv => (YNode.pythonApply FileTypeCtorTag
          [YNode.scalarStr kv.1.value], YNode.seq (kv.2.map YNode.scalarStr))) := by
    rw [file_types_create_index]
    have hp : ((FileType.PYTHON, [".py", ".pyi", ".pyx", ".pxd"]) :
        FileType × List String) ∈ FILE_TYPE_EXTENSIONS := by decide
    exact List.mem_map_of_mem
      (fun kv : FileType × List String => (YNode.pythonApply FileTypeCtorTag
        [YNode.scalarStr kv.1.value], YNode.seq (kv.2.map YNode.scalarStr))) hp
  have hinner : yaml_safe_load (YNode.mapping
      ((create_index p t fs).file_types.map
        (fun kv => (YNode.pythonApply FileTypeCtorTag
          [YNode.scalarStr kv.1.value], YNode.seq (kv.2.map YNode.scalarStr))))) = none := by
    simp [yaml_safe_load, yaml_safe_load_pairs_key_py hkey]
  have hmem5 : (YNode.scalarStr "file_types",
      YNode.mapping ((create_index p t fs).file_types.map
        (fun kv => (YNode.pythonApply FileTypeCtorTag
          [YNode.scalarStr kv.1.value], YNode.seq (kv.2.map YNode.scalarStr))))) ∈
      [(YNode.scalarStr "version",
        YNode.scalarStr (create_index p t fs).version),
       (YNode.scalarStr "last_updated",
        YNode.scalarTimestamp (create_index p t fs).last_updated),
       (YNode.scalarStr "repository",
        YNode.mapping [(YNode.scalarStr "path",
            YNode.scalarStr (create_index p t fs).repository.path),
          (YNode.scalarStr "total_files",
            YNode.scalarInt (create_index p t fs).repository.total_files)]),
       (YNode.scalarStr "index",
        YNode.mapping ((create_index p t fs).index.map
          (fun kv => (YNode.scalarStr kv.1,
            YNode.seq (kv.2.map dumpFileEntryNode))))),
       (YNode.scalarStr "file_types",
        YNode.mapping ((create_index p t fs).file_types.map
          (fun kv => (YNode.pythonApply FileTypeCtorTag
            [YNode.scalarStr kv.1.value],
            YNode.seq (kv.2.map YNode.scalarStr)))))] := by
    simp
  have htop : yaml_safe_load (dumpIndexNode (create_index p t fs)) = none := by
    unfold dumpIndexNode
    simp only [yaml_safe_load]
    rw [yaml_safe_load_pairs_value_none hinner hmem5]
    rfl
  simp [load_index, save_index, htop]

/-- C2 counterexample: when no ignore-rule file exists (`gitignore_spec` is
`none`), the path `/outside/file.py`, which lies outside the repository root
`/repo` (`relative_to` fails), is NOT ignored — refuting "regardless of
whether an ignore-rule file exists". -/
theorem C2_counterexample :
    PyPath.relative_to ⟨["/", "outside", "file.py"]⟩ ⟨["/", "repo"]⟩ = none ∧
    should_ignore none ⟨["/", "repo"]⟩ ⟨["/", "outside", "file.py"]⟩ = false := by
  constructor
  · decide
  · decide

/-- C2 (amended): when an ignore-rule file exists, every path outside the
repository root (`relative_to` fails) is ignored, whatever the compiled
patterns are, and no exception escapes; without an ignore-rule file the
default component-based policy applies instead, regardless of location. -/
theorem C2_outside_ignored (matchFile : String → Bool) (repo p : PyPath)
    (h : p.relative_to repo = none) :
    should_ignore (some matchFile) repo p = true := by
  simp [should_ignore, h]

theorem C2_outside_ignored_witness :
    PyPath.relative_to ⟨["/", "outside", "file.py"]⟩ ⟨["/", "repo"]⟩ = none ∧
    should_ignore (some (fun _ => false)) ⟨["/", "repo"]⟩
      ⟨["/", "outside", "file.py"]⟩ = true :=
  ⟨by decide, C2_outside_ignored (fun _ => false) ⟨["/", "repo"]⟩
    ⟨["/", "outside", "file.py"]⟩ (by decide)⟩

/-- C3: `repository.total_files` equals the length of the files list after
every `add_file` (from any starting state, hence after each operation of any
sequence), and an index returned by `create_index` satisfies the invariant,
its files list being exactly the scanned entries. -/
theorem C3_total_files_invariant :
    (∀ (w : WorkspaceIndex) (e : FileEntry),
        (w.add_file e).repository.total_files =
          (((w.add_file e).files).length : Int)) ∧
    (∀ (p : String) (t : Nat) (fs : List FileEntry),
        (create_index p t fs).repository.total_files =
          (((create_index p t fs).files).length : Int) ∧
        (create_index p t fs).files = fs) :=
  ⟨total_files_add_file, fun p t fs =>
    ⟨by rw [total_files_create_index, files_create_index],
     files_create_index p t fs⟩⟩

/-- C4: a pattern the regex compiler rejects yields the invalid-pattern error
carrying the compiler diagnostic (never an uncaught exception — the function
is total); a pattern it accepts yields exactly the entries whose path the
compiled regex matches anywhere, truncated to `limit`, in index order. -/
theorem C4_regex_search
    (re_compile : String → Bool → Except String (String → Bool))
    (w : WorkspaceIndex) (pattern : String) (case_sensitive : Bool)
    (limit : Nat) :
    (∀ e, re_compile pattern case_sensitive = .error e →
        search_files_regex re_compile w pattern case_sensitive limit =
          .error ("Invalid regex pattern: " ++ e)) ∧
    (∀ r, re_compile pattern case_sensitive = .ok r →
        ∃ l, search_files_regex re_compile w pattern case_sensitive limit =
            .ok l ∧
          l = (w.files.filter (fun f => r f.path)).take limit ∧
          l.length ≤ limit ∧
          (∀ f ∈ l, r f.path = true) ∧
          List.Sublist l w.files) := by
  constructor
  · intro e he
    simp [search_files_regex, he]
  · intro r hr
    refine ⟨_, by simp [search_files_regex, hr], rfl, ?_, ?_, ?_⟩
    · exact List.length_take_le limit _
    · intro f hf
      exact (List.mem_filter.mp (List.mem_of_mem_take hf)).2
    · exact (List.take_sublist _ _).trans (List.filter_sublist _)

theorem C4_regex_search_witness :
    search_files_regex (fun _ _ => .error "bad pattern") sampleIndex
      "[invalid" false 100 =
      .error ("Invalid regex pattern: " ++ "bad pattern") ∧
    ∃ l, search_files_regex (fun _ _ => .ok (fun s => strContainsSub s ".py"))
        sampleIndex "py" false 100 = .ok l ∧
      l = (sampleIndex.files.filter
        (fun f => strContainsSub f.path ".py")).take 100 ∧
      l.length ≤ 100 ∧
      (∀ f ∈ l, strContainsSub f.path ".py" = true) ∧
      List.Sublist l sampleIndex.files :=
  ⟨(C4_regex_search (fun _ _ => .error "bad pattern") sampleIndex "[invalid"
      false 100).1 "bad pattern" rfl,
   (C4_regex_search (fun _ _ => .ok (fun s => strContainsSub s ".py"))
      sampleIndex "py" false 100).2 (fun s => strContainsSub s ".py") rfl⟩

/-- C5: an unrecognized (lower-cased) type name yields the unknown-type error
whose message contains every valid type name; a recognized one yields the
entries of that type, optionally filtered by case-insensitive substring match
on the path, truncated to `limit`. -/
theorem C5_search_by_type (w : WorkspaceIndex) (ft : String)
    (pattern : Option String) (limit : Nat) :
    (FileType.ofValue (pyLower ft) = none →
        search_by_type w ft pattern limit =
          .error ("Invalid file type. Valid types are: " ++ valid_types_str) ∧
        ∀ t : FileType, strContainsSub valid_types_str t.value = true) ∧
    (∀ t, FileType.ofValue (pyLower ft) = some t →
        ∃ l, search_by_type w ft pattern limit = .ok l ∧
          l = (match pattern with
               | some p =>
                 if p = "" then w.get_files_by_type t
                 else (w.get_files_by_type t).filter
                   (fun f => strContainsSub (pyLower f.path) (pyLower p))
               | none => w.get_files_by_type t).take limit ∧
          l.length ≤ limit ∧
          (∀ f ∈ l, f.type = t) ∧
          (∀ f ∈ l, f ∈ w.files)) := by
  constructor
  · intro h
    refine ⟨by simp [search_by_type, h], ?_⟩
    intro t
    cases t <;> decide
  · intro t ht
    have hsub : List.Sublist (match pattern with
        | some p =>
          if p = "" then w.get_files_by_type t
          else (w.get_files_by_type t).filter
            (fun f => strContainsSub (pyLower f.path) (pyLower p))
        | none => w.get_files_by_type t) (w.get_files_by_type t) := by
      cases pattern with
      | none => exact List.Sublist.refl _
      | some p =>
        by_cases hp : p = ""
        · simp [hp]
        · simp only [hp, if_false]
          exact List.filter_sublist _
    refine ⟨_, by simp [search_by_type, ht], rfl, ?_, ?_, ?_⟩
    · exact List.length_take_le limit _
    · intro f hf
      exact (mem_get_files_by_type.mp
        (hsub.subset (List.mem_of_mem_take hf))).2
    · intro f hf
      exact (mem_get_files_by_type.mp
        (hsub.subset (List.mem_of_mem_take hf))).1

theorem C5_search_by_type_witness :
    search_by_type sampleIndex "cobol" none 100 =
      .error ("Invalid file type. Valid types are: " ++ valid_types_str) ∧
    strContainsSub valid_types_str FileType.CSHARP.value = true ∧
    ∃ l, search_by_type sampleIndex "python" none 100 = .ok l ∧
      ∀ f ∈ l, f.type = FileType.PYTHON := by
  have herr := (C5_search_by_type sampleIndex "cobol" none 100).1 (by decide)
  have hok := (C5_search_by_type sampleIndex "python" none 100).2
    FileType.PYTHON (by decide)
  obtain ⟨l, h1, _, _, h4, _⟩ := hok
  exact ⟨herr.1, herr.2 FileType.CSHARP, l, h1, h4⟩

/-- C6: substring search returns exactly the entries whose path contains the
pattern as a substring — both sides lower-cased first when `case_sensitive`
is false — truncated to the first `limit` matches in index order. -/
theorem C6_substring_search (w : WorkspaceIndex) (q : String)
    (case_sensitive : Bool) (limit : Nat) :
    search_files_tool w q case_sensitive limit =
      (w.files.filter (fun f =>
        if case_sensitive then strContainsSub f.path q
        else strContainsSub (pyLower f.path) (pyLower q))).take limit ∧
    List.Sublist (search_files_tool w q case_sensitive limit) w.files ∧
    (search_files_tool w q case_sensitive limit).length ≤ limit ∧
    (∀ f ∈ search_files_tool w q case_sensitive limit,
      (case_sensitive = true → ∃ pre post, f.path = pre ++ q ++ post) ∧
      (case_sensitive = false →
        ∃ pre post, pyLower f.path = pre ++ pyLower q ++ post)) := by
  have heq : search_files_tool w q case_sensitive limit =
      (w.files.filter (fun f =>
        if case_sensitive then strContainsSub f.path q
        else strContainsSub (pyLower f.path) (pyLower q))).take limit := by
    cases case_sensitive <;>
      simp [search_files_tool, WorkspaceIndex.search_files]
  refine ⟨heq, ?_, ?_, ?_⟩
  · rw [heq]
    exact (List.take_sublist _ _).trans (List.filter_sublist _)
  · rw [heq]
    exact List.length_take_le limit _
  · intro f hf
    rw [heq] at hf
    have hp := (List.mem_filter.mp (List.mem_of_mem_take hf)).2
    constructor
    · intro hcs
      subst hcs
      simp only [if_pos] at hp
      exact strContainsSub_iff.mp hp
    · intro hcs
      subst hcs
      simp only [Bool.false_eq_true, if_neg, if_false] at hp
      exact strContainsSub_iff.mp hp

theorem C6_substring_search_witness :
    sampleEntry ∈ search_files_tool sampleIndex "MAIN" false 100 ∧
    ∃ pre post, pyLower sampleEntry.path = pre ++ pyLower "MAIN" ++ post := by
  have hmem : sampleEntry ∈ search_files_tool sampleIndex "MAIN" false 100 := by
    decide
  exact ⟨hmem,
    ((C6_substring_search sampleIndex "MAIN" false 100).2.2.2 sampleEntry
      hmem).2 rfl⟩

/-- C7: case-insensitive search with `p` selects the same entries as
case-insensitive search with `p.lower()` over the index whose paths are all
lower-cased (the result is entrywise the lower-casing of the original
result). -/
theorem C7_case_folding (w : WorkspaceIndex) (p : String) :
    WorkspaceIndex.search_files (lowerPaths w) (pyLower p) false =
      (WorkspaceIndex.search_files w p false).map lowerEntry := by
  unfold WorkspaceIndex.search_files
  simp only [Bool.not_false, if_pos, files_lowerPaths, List.filter_map]
  refine congrArg _ (List.filter_congr ?_)
  intro f _
  show strContainsSub (pyLower (lowerEntry f).path) (pyLower (pyLower p)) =
    strContainsSub (pyLower f.path) (pyLower p)
  rw [show (lowerEntry f).path = pyLower f.path from rfl, pyLower_idem,
    pyLower_idem]

/-- C8: the classifier is total (a Lean function), a pure function of the
filename's extension, compares it case-insensitively, returns the type whose
extension set contains the lower-cased extension, and returns `OTHER` on
every unrecognized extension. -/
theorem C8_classifier :
    (∀ name, get_file_type name = classifyOfExt (pySuffix name)) ∧
    (∀ ext, classifyOfExt (pyLower ext) = classifyOfExt ext) ∧
    (∀ e t exts, (t, exts) ∈ FILE_TYPE_EXTENSIONS → pyLower e ∈ exts →
        classifyOfExt e = t) ∧
    (∀ e, (∀ q ∈ FILE_TYPE_EXTENSIONS, pyLower e ∉ q.2) →
        classifyOfExt e = FileType.OTHER) := by
  refine ⟨fun name => rfl, ?_, ?_, ?_⟩
  · intro ext
    unfold classifyOfExt
    rw [pyLower_idem]
  · intro e t exts hmem hin
    unfold classifyOfExt
    generalize pyLower e = x at hin ⊢
    fin_cases hmem <;> fin_cases hin <;> rfl
  · intro e h
    unfold classifyOfExt lookupExt
    have hnone : FILE_TYPE_EXTENSIONS.find?
        (fun q => q.2.contains (pyLower e)) = none := by
      rw [List.find?_eq_none]
      intro q hq
      simpa using h q hq
    rw [hnone]

theorem C8_classifier_witness :
    ((FileType.PYTHON, [".py", ".pyi", ".pyx", ".pxd"]) ∈ FILE_TYPE_EXTENSIONS ∧
      pyLower ".PY" ∈ [".py", ".pyi", ".pyx", ".pxd"] ∧
      classifyOfExt ".PY" = FileType.PYTHON) ∧
    classifyOfExt ".xyz" = FileType.OTHER :=
  ⟨⟨by decide, by decide,
    C8_classifier.2.2.1 ".PY" FileType.PYTHON [".py", ".pyi", ".pyx", ".pxd"]
      (by decide) (by decide)⟩,
   C8_classifier.2.2.2 ".xyz" (by decide)⟩

/-- C9: `load_index` returns absent when the persisted state file does not
exist, and turns every failure to parse the persisted state — a document
`yaml.safe_load` cannot read, or safe-loaded data the conversion/validation
step rejects — into absent instead of raising. -/
theorem C9_load_index_absent :
    load_index none = none ∧
    (∀ doc, yaml_safe_load doc = none → load_index (some doc) = none) ∧
    (∀ doc v, yaml_safe_load doc = some v → parseWorkspaceIndex v = none →
      load_index (some doc) = none) :=
  ⟨rfl,
   fun doc h => by simp [load_index, h],
   fun doc v h1 h2 => by simp [load_index, h1, h2]⟩

theorem C9_load_index_absent_witness :
    yaml_safe_load (YNode.pythonApply FileTypeCtorTag []) = none ∧
    load_index (some (YNode.pythonApply FileTypeCtorTag [])) = none ∧
    yaml_safe_load (YNode.scalarStr "corrupt") = some (YVal.s "corrupt") ∧
    parseWorkspaceIndex (YVal.s "corrupt") = none ∧
    load_index (some (YNode.scalarStr "corrupt")) = none := by
  have h1 : yaml_safe_load (YNode.pythonApply FileTypeCtorTag []) = none := by
    simp [yaml_safe_load]
  have h2 : yaml_safe_load (YNode.scalarStr "corrupt") = some (YVal.s "corrupt") := by
    simp [yaml_safe_load]
  exact ⟨h1, C9_load_index_absent.2.1 _ h1, h2,
    rfl, C9_load_index_absent.2.2 _ _ h2 rfl⟩

/-- C10: `search_by_type` lower-cases the type name before validation, so any
capitalization behaves exactly like the lower-case name, and the unknown-type
error occurs precisely when the lower-cased name names no type. -/
theorem C10_type_name_case_insensitive (w : WorkspaceIndex) (s : String)
    (pattern : Option String) (limit : Nat) :
    search_by_type w s pattern limit =
      search_by_type w (pyLower s) pattern limit ∧
    ((∃ msg, search_by_type w s pattern limit = Except.error msg) ↔
      FileType.ofValue (pyLower s) = none) := by
  constructor
  · unfold search_by_type
    rw [pyLower_idem]
  · unfold search_by_type
    cases h : FileType.ofValue (pyLower s) with
    | none => simp
    | some t => simp

theorem C10_type_name_case_insensitive_witness :
    search_by_type sampleIndex "PYTHON" none 100 =
      search_by_type sampleIndex (pyLower "PYTHON") none 100 ∧
    ((∃ msg, search_by_type sampleIndex "PYTHON" none 100 = Except.error msg) ↔
      FileType.ofValue (pyLower "PYTHON") = none) :=
  C10_type_name_case_insensitive sampleIndex "PYTHON" none 100

end Librarian
